import Mathlib

/-!
Verification of the stl-ruler viewer against its natural-language
specification.  The geometry layer (three.js vector, quaternion and
bounding-box operations used by the application) is embedded over the
real numbers; the UI state transitions (viewer modes, measurement
point accumulation, file upload, chat handler) are embedded as pure
transition functions on explicit state types.
-/

noncomputable section

/-- A three.js Vector3: three real components. -/
structure Vec3 where
  x : ℝ
  y : ℝ
  z : ℝ


namespace Vec3

@[ext] theorem ext3 {a b : Vec3} (hx : a.x = b.x) (hy : a.y = b.y) (hz : a.z = b.z) :
    a = b := by
  cases a; cases b; simp_all

/-- Componentwise addition (Vector3.add). -/
def add (a b : Vec3) : Vec3 := ⟨a.x + b.x, a.y + b.y, a.z + b.z⟩

/-- Componentwise subtraction (Vector3.subVectors / sub). -/
def sub (a b : Vec3) : Vec3 := ⟨a.x - b.x, a.y - b.y, a.z - b.z⟩

/-- Scalar multiplication (Vector3.multiplyScalar). -/
def smul (c : ℝ) (v : Vec3) : Vec3 := ⟨c * v.x, c * v.y, c * v.z⟩

/-- Dot product (Vector3.dot). -/
def dot (a b : Vec3) : ℝ := a.x * b.x + a.y * b.y + a.z * b.z

/-- Cross product (Vector3.crossVectors). -/
def cross (a b : Vec3) : Vec3 :=
  ⟨a.y * b.z - a.z * b.y, a.z * b.x - a.x * b.z, a.x * b.y - a.y * b.x⟩

/-- Squared length (Vector3.lengthSq). -/
def lengthSq (v : Vec3) : ℝ := v.x * v.x + v.y * v.y + v.z * v.z

/-- Length (Vector3.length). -/
def length (v : Vec3) : ℝ := Real.sqrt (lengthSq v)

/-- Vector3.normalize: divide by the length, or by 1 when the length is 0
(three.js uses `this.length() || 1`). -/
def normalize (v : Vec3) : Vec3 :=
  smul (1 / (if length v = 0 then 1 else length v)) v

/-- Vector3.distanceTo: Euclidean distance. -/
def distanceTo (a b : Vec3) : ℝ := length (sub a b)

/-- Componentwise minimum (Vector3.min, used by Box3.expandByPoint). -/
def vmin (a b : Vec3) : Vec3 := ⟨min a.x b.x, min a.y b.y, min a.z b.z⟩

/-- Componentwise maximum (Vector3.max, used by Box3.expandByPoint). -/
def vmax (a b : Vec3) : Vec3 := ⟨max a.x b.x, max a.y b.y, max a.z b.z⟩

end Vec3

/-- A three.js Quaternion: x, y, z, w components. -/
structure Quat where
  x : ℝ
  y : ℝ
  z : ℝ
  w : ℝ


namespace Quat

@[ext] theorem ext4 {a b : Quat} (hx : a.x = b.x) (hy : a.y = b.y) (hz : a.z = b.z)
    (hw : a.w = b.w) : a = b := by
  cases a; cases b; simp_all

/-- Quaternion.multiplyQuaternions(a, b): the Hamilton product, with the
exact component formulas of three.js. -/
def mul (a b : Quat) : Quat :=
  ⟨a.x * b.w + a.w * b.x + a.y * b.z - a.z * b.y,
   a.y * b.w + a.w * b.y + a.z * b.x - a.x * b.z,
   a.z * b.w + a.w * b.z + a.x * b.y - a.y * b.x,
   a.w * b.w - a.x * b.x - a.y * b.y - a.z * b.z⟩

/-- Quaternion.conjugate. -/
def conj (q : Quat) : Quat := ⟨-q.x, -q.y, -q.z, q.w⟩

/-- Quaternion.lengthSq. -/
def lengthSq (q : Quat) : ℝ := q.x * q.x + q.y * q.y + q.z * q.z + q.w * q.w

/-- Quaternion.length. -/
def length (q : Quat) : ℝ := Real.sqrt (lengthSq q)

/-- Quaternion.normalize: the identity quaternion when the length is 0,
otherwise the quaternion divided by its length. -/
def normalize (q : Quat) : Quat :=
  if length q = 0 then ⟨0, 0, 0, 1⟩
  else ⟨q.x / length q, q.y / length q, q.z / length q, q.w / length q⟩

/-- The pure quaternion holding a vector. -/
def ofVec (v : Vec3) : Quat := ⟨v.x, v.y, v.z, 0⟩

/-- The vector part of a quaternion. -/
def vec (q : Quat) : Vec3 := ⟨q.x, q.y, q.z⟩

/-- The identity quaternion (the three.js default). -/
def one : Quat := ⟨0, 0, 0, 1⟩

end Quat

/-- Vector3.applyQuaternion(q), exactly as in three.js (which assumes q is
a unit quaternion): t := 2 (q.xyz x v); result := v + q.w t + q.xyz x t. -/
def applyQuaternionV (v : Vec3) (q : Quat) : Vec3 :=
  let tx := 2 * (q.y * v.z - q.z * v.y)
  let ty := 2 * (q.z * v.x - q.x * v.z)
  let tz := 2 * (q.x * v.y - q.y * v.x)
  ⟨v.x + q.w * tx + q.y * tz - q.z * ty,
   v.y + q.w * ty + q.z * tx - q.x * tz,
   v.z + q.w * tz + q.x * ty - q.y * tx⟩

/-- The rotation matrix of Matrix4.makeRotationFromQuaternion applied to a
point, as done by BufferGeometry.applyQuaternion / applyMatrix4 on each
vertex position. -/
def rotateByQuatMatrix (q : Quat) (v : Vec3) : Vec3 :=
  let x2 := q.x + q.x
  let y2 := q.y + q.y
  let z2 := q.z + q.z
  let xx := q.x * x2
  let xy := q.x * y2
  let xz := q.x * z2
  let yy := q.y * y2
  let yz := q.y * z2
  let zz := q.z * z2
  let wx := q.w * x2
  let wy := q.w * y2
  let wz := q.w * z2
  ⟨(1 - (yy + zz)) * v.x + (xy - wz) * v.y + (xz + wy) * v.z,
   (xy + wz) * v.x + (1 - (xx + zz)) * v.y + (yz - wx) * v.z,
   (xz - wy) * v.x + (yz + wx) * v.y + (1 - (xx + yy)) * v.z⟩

/-- A BufferGeometry is modelled by its list of vertex positions. -/
def Geometry := List Vec3

/-- Box3 lower corner of the geometry (computeBoundingBox folds
expandByPoint, i.e. componentwise min, over all positions). -/
def bboxMin : Geometry → Vec3
  | [] => ⟨0, 0, 0⟩
  | p :: ps => ps.foldl Vec3.vmin p

/-- Box3 upper corner of the geometry. -/
def bboxMax : Geometry → Vec3
  | [] => ⟨0, 0, 0⟩
  | p :: ps => ps.foldl Vec3.vmax p

/-- Box3.getCenter: midpoint of min and max corners. -/
def bboxCenter (g : Geometry) : Vec3 := Vec3.smul (1 / 2) (Vec3.add (bboxMin g) (bboxMax g))

/-- BufferGeometry.center(): translate every vertex by the negated center
of the bounding box, so the local origin sits at the geometric center. -/
def centerGeometry (g : Geometry) : Geometry :=
  g.map (fun p => Vec3.sub p (bboxCenter g))

/-- BufferGeometry.applyQuaternion: rotate every vertex by the rotation
matrix built from the quaternion. -/
def applyQuaternionGeo (q : Quat) (g : Geometry) : Geometry :=
  g.map (rotateByQuatMatrix q)

/-- BufferGeometry.scale(s, s, s): multiply every vertex componentwise. -/
def scaleGeo (s : ℝ) (g : Geometry) : Geometry :=
  g.map (fun v => ⟨s * v.x, s * v.y, s * v.z⟩)

/-- The ModelDimensions record of the application. -/
structure ModelDimensions where
  width : ℝ
  height : ℝ
  depth : ℝ
  volume : ℝ


/-- The working copy built in the STLModel layout effect: the geometry is
centered (in place), then a clone gets the rotation applied, then the
uniform scale. -/
def stlWorkingCopy (g : Geometry) (meshRotation : Quat) (scale : ℝ) : Geometry :=
  scaleGeo scale (applyQuaternionGeo meshRotation (centerGeometry g))

/-- The dimension computation of STLModel: bounding box of the working
copy, size = max - min, volume = size.x * size.y * size.z, and the
vertical offset set to the negated minimum y of the box. Returns the
reported dimensions together with the vertical offset. -/
def stlModelCompute (g : Geometry) (meshRotation : Quat) (scale : ℝ) :
    ModelDimensions × ℝ :=
  let tempGeo := stlWorkingCopy g meshRotation scale
  let bmin := bboxMin tempGeo
  let bmax := bboxMax tempGeo
  let size := Vec3.sub bmax bmin
  (⟨size.x, size.y, size.z, size.x * size.y * size.z⟩, -bmin.y)

/-- Smallest element of a list of reals (0 for the empty list, which the
claims never use). -/
def listMin : List ℝ → ℝ
  | [] => 0
  | a :: as => as.foldl min a

/-- Largest element of a list of reals. -/
def listMax : List ℝ → ℝ
  | [] => 0
  | a :: as => as.foldl max a

/-- Per-axis extent of a point list, in the words of the specification:
the maximum minus the minimum of the chosen coordinate. -/
def specExtent (coord : Vec3 → ℝ) (pts : List Vec3) : ℝ :=
  listMax (pts.map coord) - listMin (pts.map coord)

end

section GeomLemmas

theorem bboxMin_x_eq (ps : List Vec3) (p : Vec3) :
    (ps.foldl Vec3.vmin p).x = (ps.map Vec3.x).foldl min p.x := by
  induction ps generalizing p with
  | nil => rfl
  | cons a as ih => simpa [Vec3.vmin] using ih (Vec3.vmin p a)

theorem bboxMin_y_eq (ps : List Vec3) (p : Vec3) :
    (ps.foldl Vec3.vmin p).y = (ps.map Vec3.y).foldl min p.y := by
  induction ps generalizing p with
  | nil => rfl
  | cons a as ih => simpa [Vec3.vmin] using ih (Vec3.vmin p a)

theorem bboxMin_z_eq (ps : List Vec3) (p : Vec3) :
    (ps.foldl Vec3.vmin p).z = (ps.map Vec3.z).foldl min p.z := by
  induction ps generalizing p with
  | nil => rfl
  | cons a as ih => simpa [Vec3.vmin] using ih (Vec3.vmin p a)

theorem bboxMax_x_eq (ps : List Vec3) (p : Vec3) :
    (ps.foldl Vec3.vmax p).x = (ps.map Vec3.x).foldl max p.x := by
  induction ps generalizing p with
  | nil => rfl
  | cons a as ih => simpa [Vec3.vmax] using ih (Vec3.vmax p a)

theorem bboxMax_y_eq (ps : List Vec3) (p : Vec3) :
    (ps.foldl Vec3.vmax p).y = (ps.map Vec3.y).foldl max p.y := by
  induction ps generalizing p with
  | nil => rfl
  | cons a as ih => simpa [Vec3.vmax] using ih (Vec3.vmax p a)

theorem bboxMax_z_eq (ps : List Vec3) (p : Vec3) :
    (ps.foldl Vec3.vmax p).z = (ps.map Vec3.z).foldl max p.z := by
  induction ps generalizing p with
  | nil => rfl
  | cons a as ih => simpa [Vec3.vmax] using ih (Vec3.vmax p a)

theorem bboxMin_coord_x (g : Geometry) : (bboxMin g).x = listMin (g.map Vec3.x) := by
  cases g with
  | nil => rfl
  | cons p ps => simpa [bboxMin, listMin] using bboxMin_x_eq ps p

theorem bboxMin_coord_y (g : Geometry) : (bboxMin g).y = listMin (g.map Vec3.y) := by
  cases g with
  | nil => rfl
  | cons p ps => simpa [bboxMin, listMin] using bboxMin_y_eq ps p

theorem bboxMin_coord_z (g : Geometry) : (bboxMin g).z = listMin (g.map Vec3.z) := by
  cases g with
  | nil => rfl
  | cons p ps => simpa [bboxMin, listMin] using bboxMin_z_eq ps p

theorem bboxMax_coord_x (g : Geometry) : (bboxMax g).x = listMax (g.map Vec3.x) := by
  cases g with
  | nil => rfl
  | cons p ps => simpa [bboxMax, listMax] using bboxMax_x_eq ps p

theorem bboxMax_coord_y (g : Geometry) : (bboxMax g).y = listMax (g.map Vec3.y) := by
  cases g with
  | nil => rfl
  | cons p ps => simpa [bboxMax, listMax] using bboxMax_y_eq ps p

theorem bboxMax_coord_z (g : Geometry) : (bboxMax g).z = listMax (g.map Vec3.z) := by
  cases g with
  | nil => rfl
  | cons p ps => simpa [bboxMax, listMax] using bboxMax_z_eq ps p

end GeomLemmas

/-- C1: the dimension computation centers the geometry on its own center,
applies the rotation then the uniform scale to a working copy, and then
reports width, height and depth as the per-axis extents (max minus min)
of that copy, volume as the product of the three extents, and sets the
vertical offset to the negated minimum y coordinate of the copy, which
puts the lowest point on the ground plane. -/
theorem stlModel_dims_spec (g : Geometry) (q : Quat) (s : ℝ) :
    let pts := stlWorkingCopy g q s
    (stlModelCompute g q s).1.width = specExtent Vec3.x pts ∧
    (stlModelCompute g q s).1.height = specExtent Vec3.y pts ∧
    (stlModelCompute g q s).1.depth = specExtent Vec3.z pts ∧
    (stlModelCompute g q s).1.volume =
      specExtent Vec3.x pts * specExtent Vec3.y pts * specExtent Vec3.z pts ∧
    (stlModelCompute g q s).2 = -(listMin (pts.map Vec3.y)) := by
  refine ⟨?_, ?_, ?_, ?_, ?_⟩ <;>
    simp [stlModelCompute, specExtent, Vec3.sub, bboxMin_coord_x, bboxMin_coord_y,
      bboxMin_coord_z, bboxMax_coord_x, bboxMax_coord_y, bboxMax_coord_z]

section ScaleLemmas

theorem foldl_min_mul (c : ℝ) (hc : 0 ≤ c) (as : List ℝ) (a : ℝ) :
    (as.map (fun t => c * t)).foldl min (c * a) = c * as.foldl min a := by
  induction as generalizing a with
  | nil => rfl
  | cons b bs ih => simpa [mul_min_of_nonneg _ _ hc] using ih (min a b)

theorem foldl_max_mul (c : ℝ) (hc : 0 ≤ c) (as : List ℝ) (a : ℝ) :
    (as.map (fun t => c * t)).foldl max (c * a) = c * as.foldl max a := by
  induction as generalizing a with
  | nil => rfl
  | cons b bs ih => simpa [mul_max_of_nonneg _ _ hc] using ih (max a b)

theorem listMin_mul (c : ℝ) (hc : 0 ≤ c) (as : List ℝ) :
    listMin (as.map (fun t => c * t)) = c * listMin as := by
  cases as with
  | nil => simp [listMin]
  | cons a bs => simpa [listMin] using foldl_min_mul c hc bs a

theorem listMax_mul (c : ℝ) (hc : 0 ≤ c) (as : List ℝ) :
    listMax (as.map (fun t => c * t)) = c * listMax as := by
  cases as with
  | nil => simp [listMax]
  | cons a bs => simpa [listMax] using foldl_max_mul c hc bs a

theorem scaleGeo_coord_x (s : ℝ) (g : Geometry) :
    (scaleGeo s g).map Vec3.x = (g.map Vec3.x).map (fun t => s * t) := by
  simp [scaleGeo, List.map_map]

theorem scaleGeo_coord_y (s : ℝ) (g : Geometry) :
    (scaleGeo s g).map Vec3.y = (g.map Vec3.y).map (fun t => s * t) := by
  simp [scaleGeo, List.map_map]

theorem scaleGeo_coord_z (s : ℝ) (g : Geometry) :
    (scaleGeo s g).map Vec3.z = (g.map Vec3.z).map (fun t => s * t) := by
  simp [scaleGeo, List.map_map]

theorem scaleGeo_one (g : Geometry) : scaleGeo 1 g = g := by
  unfold scaleGeo
  have : (fun v : Vec3 => (⟨1 * v.x, 1 * v.y, 1 * v.z⟩ : Vec3)) = fun v => v := by
    funext v
    ext <;> simp
  rw [this]
  simp

theorem specExtent_scale (coord : Vec3 → ℝ) (s : ℝ) (hs : 0 ≤ s) (g : Geometry)
    (hcoord : (scaleGeo s g).map coord = (g.map coord).map (fun t => s * t)) :
    specExtent coord (scaleGeo s g) = s * specExtent coord g := by
  unfold specExtent
  rw [hcoord, listMin_mul s hs, listMax_mul s hs]
  ring

end ScaleLemmas

/-- C2: replacing scale 1 by scale s > 0 in the dimension computation
multiplies each reported extent by s and the reported volume by s cubed. -/
theorem stlModel_dims_scale (g : Geometry) (q : Quat) (s : ℝ) (hs : 0 < s) :
    (stlModelCompute g q s).1.width = s * (stlModelCompute g q 1).1.width ∧
    (stlModelCompute g q s).1.height = s * (stlModelCompute g q 1).1.height ∧
    (stlModelCompute g q s).1.depth = s * (stlModelCompute g q 1).1.depth ∧
    (stlModelCompute g q s).1.volume = s ^ 3 * (stlModelCompute g q 1).1.volume := by
  have hs0 : 0 ≤ s := le_of_lt hs
  set R : Geometry := applyQuaternionGeo q (centerGeometry g) with hR
  have hspec := stlModel_dims_spec g q s
  have hspec1 := stlModel_dims_spec g q 1
  simp only at hspec hspec1
  have hcopy : stlWorkingCopy g q s = scaleGeo s R := rfl
  have hcopy1 : stlWorkingCopy g q 1 = R := by
    rw [stlWorkingCopy, ← hR, scaleGeo_one]
  have hx : specExtent Vec3.x (stlWorkingCopy g q s) = s * specExtent Vec3.x (stlWorkingCopy g q 1) := by
    rw [hcopy, hcopy1, specExtent_scale Vec3.x s hs0 R (scaleGeo_coord_x s R)]
  have hy : specExtent Vec3.y (stlWorkingCopy g q s) = s * specExtent Vec3.y (stlWorkingCopy g q 1) := by
    rw [hcopy, hcopy1, specExtent_scale Vec3.y s hs0 R (scaleGeo_coord_y s R)]
  have hz : specExtent Vec3.z (stlWorkingCopy g q s) = s * specExtent Vec3.z (stlWorkingCopy g q 1) := by
    rw [hcopy, hcopy1, specExtent_scale Vec3.z s hs0 R (scaleGeo_coord_z s R)]
  refine ⟨?_, ?_, ?_, ?_⟩
  · rw [hspec.1, hspec1.1, hx]
  · rw [hspec.2.1, hspec1.2.1, hy]
  · rw [hspec.2.2.1, hspec1.2.2.1, hz]
  · rw [hspec.2.2.2.1, hspec1.2.2.2.1, hx, hy, hz]
    ring

/-- Witness for C2 at a concrete two-point geometry, the identity rotation
and scale 2. -/
theorem stlModel_dims_scale_witness :
    (0 : ℝ) < 2 ∧
    ((stlModelCompute [⟨0, 0, 0⟩, ⟨1, 2, 3⟩] Quat.one 2).1.width =
        2 * (stlModelCompute [⟨0, 0, 0⟩, ⟨1, 2, 3⟩] Quat.one 1).1.width ∧
      (stlModelCompute [⟨0, 0, 0⟩, ⟨1, 2, 3⟩] Quat.one 2).1.height =
        2 * (stlModelCompute [⟨0, 0, 0⟩, ⟨1, 2, 3⟩] Quat.one 1).1.height ∧
      (stlModelCompute [⟨0, 0, 0⟩, ⟨1, 2, 3⟩] Quat.one 2).1.depth =
        2 * (stlModelCompute [⟨0, 0, 0⟩, ⟨1, 2, 3⟩] Quat.one 1).1.depth ∧
      (stlModelCompute [⟨0, 0, 0⟩, ⟨1, 2, 3⟩] Quat.one 2).1.volume =
        (2 : ℝ) ^ 3 * (stlModelCompute [⟨0, 0, 0⟩, ⟨1, 2, 3⟩] Quat.one 1).1.volume) :=
  ⟨two_pos, stlModel_dims_scale [⟨0, 0, 0⟩, ⟨1, 2, 3⟩] Quat.one 2 two_pos⟩

noncomputable section

/-- The ViewerMode enumeration of the application. -/
inductive ViewerMode where
  | VIEW
  | MEASURE
  | AI_ANALYSIS
  | ALIGN
deriving DecidableEq

/-- The MEASURE branch of handleMeshClick: with two (or more) points held,
restart from the clicked point alone; otherwise append the clicked point. -/
def measureClick (prev : List Vec3) (p : Vec3) : List Vec3 :=
  if 2 ≤ prev.length then [p] else prev ++ [p]

/-- What the MeasurementTool overlay displays: the Euclidean distance
between the first and second point when exactly two points are held,
nothing otherwise. -/
def measurementDisplay : List Vec3 → Option ℝ
  | [a, b] => some (Vec3.distanceTo a b)
  | _ => none

/-- The face-alignment computation of handleMeshClick: transform the local
face normal to world space by the current rotation and normalize it, take
the shortest-arc quaternion onto the downward axis, and left-multiply it
onto the current rotation. The downward target direction is (0, -1, 0).
Uses setFromUnitVectors, defined below. -/
def targetDir : Vec3 := ⟨0, -1, 0⟩

/-- Number.EPSILON of JavaScript, the branch threshold inside
Quaternion.setFromUnitVectors. -/
def numberEpsilon : ℝ := 1 / 2 ^ 52

/-- Quaternion.setFromUnitVectors(vFrom, vTo) of three.js: the raw
quaternion before the final normalize call. -/
def setFromUnitVectorsRaw (vFrom vTo : Vec3) : Quat :=
  let r := Vec3.dot vFrom vTo + 1
  if r < numberEpsilon then
    if |vFrom.x| > |vFrom.z| then ⟨-vFrom.y, vFrom.x, 0, 0⟩
    else ⟨0, -vFrom.z, vFrom.y, 0⟩
  else ⟨vFrom.y * vTo.z - vFrom.z * vTo.y,
        vFrom.z * vTo.x - vFrom.x * vTo.z,
        vFrom.x * vTo.y - vFrom.y * vTo.x,
        r⟩

/-- Quaternion.setFromUnitVectors including its final normalize call. -/
def setFromUnitVectors (vFrom vTo : Vec3) : Quat :=
  Quat.normalize (setFromUnitVectorsRaw vFrom vTo)

/-- The world-space normal computed in the ALIGN branch:
e.face.normal.clone().applyQuaternion(meshRotation).normalize(). -/
def worldNormalOf (meshRotation : Quat) (localNormal : Vec3) : Vec3 :=
  Vec3.normalize (applyQuaternionV localNormal meshRotation)

/-- The new rotation produced by the ALIGN branch:
alignQuat.multiply(meshRotation) where alignQuat is the shortest-arc
quaternion from the world normal to the downward axis. -/
def alignNewRotation (meshRotation : Quat) (localNormal : Vec3) : Quat :=
  Quat.mul (setFromUnitVectors (worldNormalOf meshRotation localNormal) targetDir)
    meshRotation

/-- handleMeshClick of Viewer3D: in MEASURE mode update the measurement
points; in ALIGN mode (when the event carries a face) report the new
rotation; otherwise do nothing. Returns the new point list and the
rotation change request, if any. -/
def handleMeshClick (mode : ViewerMode) (meshRotation : Quat) (pts : List Vec3)
    (clickPoint : Vec3) (faceNormal : Option Vec3) : List Vec3 × Option Quat :=
  match mode with
  | ViewerMode.MEASURE => (measureClick pts clickPoint, none)
  | ViewerMode.ALIGN =>
      match faceNormal with
      | none => (pts, none)
      | some n => (pts, some (alignNewRotation meshRotation n))
  | _ => (pts, none)

/-- An event affecting the measurement point state of Viewer3D: either a
change of any of fileUrl, viewerMode, meshRotation or scale (the React
effect keyed on these four dependencies), or a click on the mesh. -/
inductive ViewerEvent where
  | depsChanged
  | meshClick (mode : ViewerMode) (rotation : Quat) (point : Vec3)
      (faceNormal : Option Vec3)

/-- The measurement point state transition of Viewer3D. -/
def measurePointsStep (pts : List Vec3) : ViewerEvent → List Vec3
  | ViewerEvent.depsChanged => []
  | ViewerEvent.meshClick mode rot p n => (handleMeshClick mode rot pts p n).1

/-- The Drop Face button of the Sidebar:
setViewerMode(viewerMode === ALIGN ? VIEW : ALIGN). -/
def alignButtonClick (v : ViewerMode) : ViewerMode :=
  if v = ViewerMode.ALIGN then ViewerMode.VIEW else ViewerMode.ALIGN

/-- The Ruler Tool button of the Sidebar:
setViewerMode(viewerMode === MEASURE ? VIEW : MEASURE). -/
def measureButtonClick (v : ViewerMode) : ViewerMode :=
  if v = ViewerMode.MEASURE then ViewerMode.VIEW else ViewerMode.MEASURE

end

theorem measureClick_length_le (pts : List Vec3) (p : Vec3) (h : pts.length ≤ 2) :
    (measureClick pts p).length ≤ 2 := by
  unfold measureClick
  split
  · simp
  · rename_i hlt
    simp only [List.length_append, List.length_cons, List.length_nil]
    omega

theorem handleMeshClick_length_le (mode : ViewerMode) (rot : Quat) (pts : List Vec3)
    (p : Vec3) (n : Option Vec3) (h : pts.length ≤ 2) :
    (handleMeshClick mode rot pts p n).1.length ≤ 2 := by
  cases mode <;> simp [handleMeshClick, h]
  · exact measureClick_length_le pts p h
  · cases n <;> simp [h]

theorem measurePointsStep_length_le (pts : List Vec3) (e : ViewerEvent)
    (h : pts.length ≤ 2) : (measurePointsStep pts e).length ≤ 2 := by
  cases e with
  | depsChanged => simp [measurePointsStep]
  | meshClick mode rot p n => exact handleMeshClick_length_le mode rot pts p n h

theorem measurePoints_reachable_le (evs : List ViewerEvent) (pts : List Vec3)
    (h : pts.length ≤ 2) : (evs.foldl measurePointsStep pts).length ≤ 2 := by
  induction evs generalizing pts with
  | nil => simpa using h
  | cons e es ih => exact ih _ (measurePointsStep_length_le pts e h)

/-- C4: in measurement mode, a click appends the clicked point while fewer
than two points are held; with two points held a click restarts with just
the new point; holding exactly two points displays the Euclidean distance
between the first and the second; and starting from the empty list, no
click sequence ever produces more than two points. -/
theorem measure_tool_spec :
    (∀ (pts : List Vec3) (p : Vec3), pts.length < 2 → measureClick pts p = pts ++ [p]) ∧
    (∀ (pts : List Vec3) (p : Vec3), 2 ≤ pts.length → measureClick pts p = [p]) ∧
    (∀ a b : Vec3, measurementDisplay [a, b] = some (Vec3.distanceTo a b)) ∧
    (∀ ps : List Vec3,
      ((ps.map (fun p => ViewerEvent.meshClick ViewerMode.MEASURE Quat.one p none)).foldl
          measurePointsStep []).length ≤ 2) := by
  refine ⟨?_, ?_, ?_, ?_⟩
  · intro pts p h
    simp [measureClick, Nat.not_le.mpr h]
  · intro pts p h
    simp [measureClick, h]
  · intro a b
    rfl
  · intro ps
    exact measurePoints_reachable_le _ [] (by simp)

/-- Witness for C4 at concrete points. -/
theorem measure_tool_spec_witness :
    measureClick [] ⟨0, 0, 0⟩ = [⟨0, 0, 0⟩] ∧
    measureClick [⟨0, 0, 0⟩] ⟨3, 4, 0⟩ = [⟨0, 0, 0⟩, ⟨3, 4, 0⟩] ∧
    measureClick [⟨0, 0, 0⟩, ⟨3, 4, 0⟩] ⟨1, 1, 1⟩ = [⟨1, 1, 1⟩] ∧
    measurementDisplay [⟨0, 0, 0⟩, ⟨3, 4, 0⟩] =
      some (Vec3.distanceTo ⟨0, 0, 0⟩ ⟨3, 4, 0⟩) := by
  refine ⟨?_, ?_, ?_, measure_tool_spec.2.2.1 ⟨0, 0, 0⟩ ⟨3, 4, 0⟩⟩
  · simpa using measure_tool_spec.1 [] ⟨0, 0, 0⟩ (by simp)
  · simpa using measure_tool_spec.1 [⟨0, 0, 0⟩] ⟨3, 4, 0⟩ (by simp)
  · exact measure_tool_spec.2.1 [⟨0, 0, 0⟩, ⟨3, 4, 0⟩] ⟨1, 1, 1⟩ (by simp)

/-- C5: any change of the loaded file URL, the viewer mode, the mesh
rotation or the scale clears the measurement points (the effect keyed on
these four dependencies), and every state reachable from the empty list
holds at most two points. -/
theorem measure_points_invariant :
    (∀ pts : List Vec3, measurePointsStep pts ViewerEvent.depsChanged = []) ∧
    (∀ evs : List ViewerEvent, (evs.foldl measurePointsStep []).length ≤ 2) := by
  refine ⟨fun pts => rfl, fun evs => measurePoints_reachable_le evs [] (by simp)⟩

/-- C9: each of the two mode buttons returns to plain viewing when its own
mode is active and activates its mode otherwise, so pressing the same
button twice starting from plain viewing ends in plain viewing. -/
theorem mode_toggle_spec :
    (∀ v : ViewerMode, v = ViewerMode.ALIGN → alignButtonClick v = ViewerMode.VIEW) ∧
    (∀ v : ViewerMode, v ≠ ViewerMode.ALIGN → alignButtonClick v = ViewerMode.ALIGN) ∧
    (∀ v : ViewerMode, v = ViewerMode.MEASURE → measureButtonClick v = ViewerMode.VIEW) ∧
    (∀ v : ViewerMode, v ≠ ViewerMode.MEASURE → measureButtonClick v = ViewerMode.MEASURE) ∧
    alignButtonClick (alignButtonClick ViewerMode.VIEW) = ViewerMode.VIEW ∧
    measureButtonClick (measureButtonClick ViewerMode.VIEW) = ViewerMode.VIEW := by
  refine ⟨?_, ?_, ?_, ?_, rfl, rfl⟩ <;> intro v h <;> cases v <;> simp_all [alignButtonClick, measureButtonClick]

/-- Witness for C9 at concrete modes. -/
theorem mode_toggle_spec_witness :
    alignButtonClick ViewerMode.ALIGN = ViewerMode.VIEW ∧
    alignButtonClick ViewerMode.VIEW = ViewerMode.ALIGN ∧
    measureButtonClick ViewerMode.MEASURE = ViewerMode.VIEW ∧
    measureButtonClick ViewerMode.VIEW = ViewerMode.MEASURE :=
  ⟨mode_toggle_spec.1 ViewerMode.ALIGN rfl,
   mode_toggle_spec.2.1 ViewerMode.VIEW (by simp),
   mode_toggle_spec.2.2.1 ViewerMode.MEASURE rfl,
   mode_toggle_spec.2.2.2.1 ViewerMode.VIEW (by simp)⟩

noncomputable section

/-- Quaternion.setFromEuler for the default XYZ order, as used by App. -/
def setFromEulerXYZ (ex ey ez : ℝ) : Quat :=
  let c1 := Real.cos (ex / 2)
  let c2 := Real.cos (ey / 2)
  let c3 := Real.cos (ez / 2)
  let s1 := Real.sin (ex / 2)
  let s2 := Real.sin (ey / 2)
  let s3 := Real.sin (ez / 2)
  ⟨s1 * c2 * c3 + c1 * s2 * s3,
   c1 * s2 * c3 - s1 * c2 * s3,
   c1 * c2 * s3 + s1 * s2 * c3,
   c1 * c2 * c3 - s1 * s2 * s3⟩

/-- Quaternion.setFromAxisAngle. -/
def setFromAxisAngle (axis : Vec3) (angle : ℝ) : Quat :=
  ⟨axis.x * Real.sin (angle / 2), axis.y * Real.sin (angle / 2),
   axis.z * Real.sin (angle / 2), Real.cos (angle / 2)⟩

/-- The initial mesh rotation of App: a -90 degree rotation about X that
converts Z-up STL data to the Y-up scene, built with setFromEuler. -/
def defaultMeshRotation : Quat := setFromEulerXYZ (-(Real.pi / 2)) 0 0

/-- The top-level App state that handleFileUpload touches. -/
structure AppState (Url : Type) where
  fileUrl : Option Url
  dimensions : Option ModelDimensions
  viewerMode : ViewerMode
  scaleFactor : ℝ
  meshRotation : Quat

/-- An object-URL lifecycle action, in the order the handler performs
them. -/
inductive UrlAction (Url : Type) where
  | revoke (u : Url)
  | create (u : Url)

/-- handleFileUpload of App: revoke the previous object URL when present,
create the URL of the new file, store it, discard the dimensions, return
to plain viewing, reset the scale to 1 and the rotation to the default
Z-up correction. Returns the new state and the URL actions performed, in
order. -/
def handleFileUpload {File Url : Type} (createObjectURL : File → Url)
    (st : AppState Url) (file : File) : AppState Url × List (UrlAction Url) :=
  let revokes : List (UrlAction Url) :=
    match st.fileUrl with
    | some u => [UrlAction.revoke u]
    | none => []
  let url := createObjectURL file
  (⟨some url, none, ViewerMode.VIEW, 1, defaultMeshRotation⟩,
    revokes ++ [UrlAction.create url])

end

theorem defaultMeshRotation_axisAngle :
    defaultMeshRotation = setFromAxisAngle ⟨1, 0, 0⟩ (-(Real.pi / 2)) := by
  unfold defaultMeshRotation setFromEulerXYZ setFromAxisAngle
  ext <;> simp

/-- C6: when a file is already loaded, uploading a new file resets the
rotation to the default Z-up correction (the -90 degree rotation about
X), resets the scale to 1, discards the computed dimensions, returns the
viewer mode to plain viewing, and revokes the previous object URL before
creating the new one. -/
theorem file_upload_resets {File Url : Type} (createObjectURL : File → Url)
    (st : AppState Url) (file : File) (u : Url) (h : st.fileUrl = some u) :
    (handleFileUpload createObjectURL st file).1.meshRotation = defaultMeshRotation ∧
    defaultMeshRotation = setFromAxisAngle ⟨1, 0, 0⟩ (-(Real.pi / 2)) ∧
    (handleFileUpload createObjectURL st file).1.scaleFactor = 1 ∧
    (handleFileUpload createObjectURL st file).1.dimensions = none ∧
    (handleFileUpload createObjectURL st file).1.viewerMode = ViewerMode.VIEW ∧
    (handleFileUpload createObjectURL st file).1.fileUrl = some (createObjectURL file) ∧
    (handleFileUpload createObjectURL st file).2 =
      [UrlAction.revoke u, UrlAction.create (createObjectURL file)] := by
  refine ⟨rfl, defaultMeshRotation_axisAngle, rfl, rfl, rfl, rfl, ?_⟩
  simp [handleFileUpload, h]

/-- Witness for C6 with a concrete prior state. -/
theorem file_upload_resets_witness :
    ((⟨some 7, none, ViewerMode.MEASURE, 2, Quat.one⟩ : AppState ℕ).fileUrl = some 7) ∧
    ((handleFileUpload (fun n : ℕ => n + 1)
        ⟨some 7, none, ViewerMode.MEASURE, 2, Quat.one⟩ 4).1.meshRotation =
          defaultMeshRotation ∧
      defaultMeshRotation = setFromAxisAngle ⟨1, 0, 0⟩ (-(Real.pi / 2)) ∧
      (handleFileUpload (fun n : ℕ => n + 1)
        ⟨some 7, none, ViewerMode.MEASURE, 2, Quat.one⟩ 4).1.scaleFactor = 1 ∧
      (handleFileUpload (fun n : ℕ => n + 1)
        ⟨some 7, none, ViewerMode.MEASURE, 2, Quat.one⟩ 4).1.dimensions = none ∧
      (handleFileUpload (fun n : ℕ => n + 1)
        ⟨some 7, none, ViewerMode.MEASURE, 2, Quat.one⟩ 4).1.viewerMode = ViewerMode.VIEW ∧
      (handleFileUpload (fun n : ℕ => n + 1)
        ⟨some 7, none, ViewerMode.MEASURE, 2, Quat.one⟩ 4).1.fileUrl = some 5 ∧
      (handleFileUpload (fun n : ℕ => n + 1)
        ⟨some 7, none, ViewerMode.MEASURE, 2, Quat.one⟩ 4).2 =
        [UrlAction.revoke 7, UrlAction.create 5]) :=
  ⟨rfl, file_upload_resets (fun n : ℕ => n + 1)
    ⟨some 7, none, ViewerMode.MEASURE, 2, Quat.one⟩ 4 7 rfl⟩

/-- JavaScript String.prototype.trim: strip leading and trailing
whitespace. -/
def jsTrim (s : String) : String :=
  ⟨((s.data.dropWhile Char.isWhitespace).reverse.dropWhile Char.isWhitespace).reverse⟩

/-- The author of a chat transcript entry. -/
inductive Role where
  | user
  | ai
deriving DecidableEq

/-- The AnalysisMessage record of the application (the isError flag is
absent in the source for ordinary entries, which is modelled as false). -/
structure AnalysisMessage where
  role : Role
  content : String
  isError : Bool
deriving DecidableEq

/-- The default prompt submitted on a blank send. -/
def defaultAnalysisPrompt : String :=
  "What is this object and what are the 3D printing considerations?"

/-- analyzeModelImage of the gemini service, with the provider call
abstracted as its outcome: on success return the response text, or a
default sentence when the text is absent or empty; on failure rethrow an
error carrying the provider message, or a generic one when that message
is absent or empty. -/
def analyzeModelImage (providerOutcome : Except (Option String) (Option String)) :
    Except String String :=
  match providerOutcome with
  | Except.ok t =>
      Except.ok (match t with
        | some s => if s = "" then "No analysis could be generated." else s
        | none => "No analysis could be generated.")
  | Except.error m =>
      Except.error (match m with
        | some s => if s = "" then "Failed to analyze image." else s
        | none => "Failed to analyze image.")

/-- The result of one handleSendMessage run: the transcript afterwards and
the outbound requests issued (screenshot and prompt pairs). -/
structure SendOutcome where
  messages : List AnalysisMessage
  requests : List (String × String)
deriving DecidableEq

/-- The user-echo step of handleSendMessage: a nonblank prompt is appended
as a user entry; a blank prompt on an empty transcript appends the fixed
user entry "Analyze this model."; otherwise nothing is appended. -/
def sendUserEcho (prompt : String) (messages : List AnalysisMessage) :
    List AnalysisMessage :=
  if jsTrim prompt ≠ "" then messages ++ [⟨Role.user, jsTrim prompt, false⟩]
  else if messages.length = 0 then
    messages ++ [⟨Role.user, "Analyze this model.", false⟩]
  else messages

/-- handleSendMessage of the Sidebar: return unchanged when the prompt is
blank and the transcript nonempty; append a guidance error entry and issue
no request when no screenshot is available; otherwise echo the user
prompt, issue the request with the trimmed or default prompt, and append
the response as an entry, or the fixed failure entry when the call
throws. -/
def handleSendMessage (prompt : String) (messages : List AnalysisMessage)
    (screenshot : Option String) (aiOutcome : Except String String) : SendOutcome :=
  if jsTrim prompt = "" ∧ 0 < messages.length then ⟨messages, []⟩
  else
    match screenshot with
    | none =>
        ⟨messages ++ [⟨Role.ai, "Please load a 3D model first to analyze it.", true⟩], []⟩
    | some shot =>
        let currentPrompt := if jsTrim prompt = "" then defaultAnalysisPrompt else jsTrim prompt
        let echoed := sendUserEcho prompt messages
        match aiOutcome with
        | Except.ok response => ⟨echoed ++ [⟨Role.ai, response, false⟩], [(shot, currentPrompt)]⟩
        | Except.error _ =>
            ⟨echoed ++ [⟨Role.ai, "Failed to analyze the model.", true⟩], [(shot, currentPrompt)]⟩

theorem sendUserEcho_countP_isError (prompt : String) (messages : List AnalysisMessage) :
    (sendUserEcho prompt messages).countP (fun m => m.isError) =
      messages.countP (fun m => m.isError) := by
  unfold sendUserEcho
  split
  · simp [List.countP_append]
  · split <;> simp [List.countP_append]

/-- C7 counterexample: a send attempt with a blank prompt and a nonempty
transcript while no screenshot is available returns the transcript
unchanged, so no guidance entry is appended, contrary to the claim as
stated. -/
theorem send_no_model_cex :
    (handleSendMessage "" [⟨Role.user, "hi", false⟩] none (Except.error "x")).messages
        = [⟨Role.user, "hi", false⟩] ∧
    ¬ (handleSendMessage "" [⟨Role.user, "hi", false⟩] none (Except.error "x")).messages
        = [⟨Role.user, "hi", false⟩] ++
            [⟨Role.ai, "Please load a 3D model first to analyze it.", true⟩] := by
  refine ⟨by decide, by decide⟩

/-- C7 (amended): a send attempt with no screenshot available appends
exactly one error-flagged guidance entry and issues no request, except
when the prompt is blank and the transcript nonempty, in which case the
handler returns with the transcript unchanged and no request either. -/
theorem send_no_model (prompt : String) (messages : List AnalysisMessage)
    (aiOutcome : Except String String) :
    (¬ (jsTrim prompt = "" ∧ 0 < messages.length) →
      handleSendMessage prompt messages none aiOutcome =
        ⟨messages ++ [⟨Role.ai, "Please load a 3D model first to analyze it.", true⟩], []⟩) ∧
    ((jsTrim prompt = "" ∧ 0 < messages.length) →
      handleSendMessage prompt messages none aiOutcome = ⟨messages, []⟩) := by
  constructor
  · intro h
    simp [handleSendMessage, h]
  · intro h
    simp [handleSendMessage, h]

/-- Witness for C7 on concrete transcripts: a nonblank prompt with no
screenshot gets the guidance entry; a blank prompt over a nonempty
transcript is dropped. -/
theorem send_no_model_witness :
    handleSendMessage "hi" [] none (Except.error "x") =
      ⟨[⟨Role.ai, "Please load a 3D model first to analyze it.", true⟩], []⟩ ∧
    handleSendMessage "" [⟨Role.user, "a", false⟩] none (Except.error "x") =
      ⟨[⟨Role.user, "a", false⟩], []⟩ :=
  ⟨by simpa using (send_no_model "hi" [] (Except.error "x")).1 (by decide),
   by simpa using (send_no_model "" [⟨Role.user, "a", false⟩] (Except.error "x")).2 (by decide)⟩

/-- C8 counterexample: when the provider fails with the message "boom",
the transcript entry appended by the handler carries the fixed text
"Failed to analyze the model.", not the provider message, contrary to the
claim as stated. -/
theorem send_provider_error_cex :
    analyzeModelImage (Except.error (some "boom")) = Except.error "boom" ∧
    (handleSendMessage "hi" [] (some "img")
        (analyzeModelImage (Except.error (some "boom")))).messages
      = [⟨Role.user, "hi", false⟩, ⟨Role.ai, "Failed to analyze the model.", true⟩] ∧
    ¬ (handleSendMessage "hi" [] (some "img")
        (analyzeModelImage (Except.error (some "boom")))).messages
      = [⟨Role.user, "hi", false⟩, ⟨Role.ai, "boom", true⟩] := by
  refine ⟨by simp [analyzeModelImage], by decide, by decide⟩

/-- C8 (amended): a failing AI request is caught and converted into
exactly one additional error-flagged entry whose text is the fixed
message "Failed to analyze the model." regardless of the provider
message, the handler stays total, and exactly one request was issued (no
retry). -/
theorem send_provider_error (prompt : String) (messages : List AnalysisMessage)
    (shot : String) (e : String)
    (h : ¬ (jsTrim prompt = "" ∧ 0 < messages.length)) :
    (handleSendMessage prompt messages (some shot) (Except.error e)).messages
      = sendUserEcho prompt messages ++ [⟨Role.ai, "Failed to analyze the model.", true⟩] ∧
    ((handleSendMessage prompt messages (some shot) (Except.error e)).messages.countP
        (fun m => m.isError))
      = messages.countP (fun m => m.isError) + 1 ∧
    (handleSendMessage prompt messages (some shot) (Except.error e)).requests.length = 1 := by
  refine ⟨?_, ?_, ?_⟩ <;>
    simp [handleSendMessage, h, List.countP_append, sendUserEcho_countP_isError]

/-- Witness for C8 at a concrete failing call. -/
theorem send_provider_error_witness :
    (handleSendMessage "hi" [] (some "img") (Except.error "boom")).messages
      = sendUserEcho "hi" [] ++ [⟨Role.ai, "Failed to analyze the model.", true⟩] ∧
    ((handleSendMessage "hi" [] (some "img") (Except.error "boom")).messages.countP
        (fun m => m.isError)) = 1 ∧
    (handleSendMessage "hi" [] (some "img") (Except.error "boom")).requests.length = 1 := by
  have := send_provider_error "hi" [] "img" "boom" (by decide)
  simpa using this

/-- C10: a blank send attempt with a screenshot available returns the
transcript unchanged with no request when the transcript is nonempty, and
on an empty transcript issues one request carrying the default prompt and
appends the fixed user entry "Analyze this model." followed by the call
outcome entry. -/
theorem send_blank_prompt (prompt : String) (messages : List AnalysisMessage)
    (shot : String) (aiOutcome : Except String String)
    (hblank : jsTrim prompt = "") :
    (0 < messages.length →
      handleSendMessage prompt messages (some shot) aiOutcome = ⟨messages, []⟩) ∧
    (messages = [] →
      (handleSendMessage prompt messages (some shot) aiOutcome).requests
          = [(shot, defaultAnalysisPrompt)] ∧
      ∃ outcomeEntry, (handleSendMessage prompt messages (some shot) aiOutcome).messages
          = [⟨Role.user, "Analyze this model.", false⟩, outcomeEntry]) := by
  constructor
  · intro h
    simp [handleSendMessage, hblank, h]
  · rintro rfl
    cases aiOutcome with
    | ok r =>
        exact ⟨by simp [handleSendMessage, hblank],
          ⟨⟨Role.ai, r, false⟩, by simp [handleSendMessage, sendUserEcho, hblank]⟩⟩
    | error e =>
        exact ⟨by simp [handleSendMessage, hblank],
          ⟨⟨Role.ai, "Failed to analyze the model.", true⟩,
            by simp [handleSendMessage, sendUserEcho, hblank]⟩⟩

/-- Witness for C10 at a concrete blank send. -/
theorem send_blank_prompt_witness :
    jsTrim "" = "" ∧
    handleSendMessage "" [⟨Role.user, "a", false⟩] (some "img") (Except.ok "r") =
      ⟨[⟨Role.user, "a", false⟩], []⟩ ∧
    (handleSendMessage "" [] (some "img") (Except.ok "r")).requests
        = [("img", defaultAnalysisPrompt)] ∧
    ∃ outcomeEntry, (handleSendMessage "" [] (some "img") (Except.ok "r")).messages
        = [⟨Role.user, "Analyze this model.", false⟩, outcomeEntry] :=
  ⟨rfl,
   by simpa using (send_blank_prompt "" [⟨Role.user, "a", false⟩] "img" (Except.ok "r") rfl).1 (by simp),
   ((send_blank_prompt "" [] "img" (Except.ok "r") rfl).2 rfl).1,
   ((send_blank_prompt "" [] "img" (Except.ok "r") rfl).2 rfl).2⟩

section QuatLemmas

theorem numberEpsilon_pos : 0 < numberEpsilon := by norm_num [numberEpsilon]

theorem numberEpsilon_le_one : numberEpsilon ≤ 1 := by norm_num [numberEpsilon]

theorem quat_conj_sandwich_w (q : Quat) (v : Vec3) :
    (Quat.mul (Quat.mul q (Quat.ofVec v)) (Quat.conj q)).w = 0 := by
  dsimp [Quat.mul, Quat.ofVec, Quat.conj]
  ring

theorem quat_sandwich_mul (a b : Quat) (v : Vec3) :
    Quat.mul (Quat.mul (Quat.mul a b) (Quat.ofVec v)) (Quat.conj (Quat.mul a b))
      = Quat.mul (Quat.mul a (Quat.mul (Quat.mul b (Quat.ofVec v)) (Quat.conj b)))
          (Quat.conj a) := by
  ext <;> dsimp [Quat.mul, Quat.ofVec, Quat.conj] <;> ring

theorem applyQuaternionV_eq_conj (v : Vec3) (q : Quat) (h : Quat.lengthSq q = 1) :
    applyQuaternionV v q = Quat.vec (Quat.mul (Quat.mul q (Quat.ofVec v)) (Quat.conj q)) := by
  simp only [Quat.lengthSq] at h
  ext
  · dsimp [applyQuaternionV, Quat.mul, Quat.ofVec, Quat.conj, Quat.vec]
    linear_combination (-v.x) * h
  · dsimp [applyQuaternionV, Quat.mul, Quat.ofVec, Quat.conj, Quat.vec]
    linear_combination (-v.y) * h
  · dsimp [applyQuaternionV, Quat.mul, Quat.ofVec, Quat.conj, Quat.vec]
    linear_combination (-v.z) * h

theorem applyQuaternionV_lengthSq (v : Vec3) (q : Quat) (h : Quat.lengthSq q = 1) :
    Vec3.lengthSq (applyQuaternionV v q) = Vec3.lengthSq v := by
  simp only [Quat.lengthSq] at h
  dsimp [applyQuaternionV, Vec3.lengthSq]
  linear_combination (4 * ((q.y * v.z - q.z * v.y) ^ 2 + (q.z * v.x - q.x * v.z) ^ 2 +
    (q.x * v.y - q.y * v.x) ^ 2)) * h

theorem quat_lengthSq_mul (a b : Quat) :
    Quat.lengthSq (Quat.mul a b) = Quat.lengthSq a * Quat.lengthSq b := by
  dsimp [Quat.lengthSq, Quat.mul]
  ring

theorem ofVec_vec_of_w (X : Quat) (h : X.w = 0) : Quat.ofVec (Quat.vec X) = X := by
  ext <;> simp [Quat.ofVec, Quat.vec, h]

theorem applyQuaternionV_mul (v : Vec3) (a b : Quat) (ha : Quat.lengthSq a = 1)
    (hb : Quat.lengthSq b = 1) :
    applyQuaternionV v (Quat.mul a b) = applyQuaternionV (applyQuaternionV v b) a := by
  have hab : Quat.lengthSq (Quat.mul a b) = 1 := by
    rw [quat_lengthSq_mul, ha, hb, one_mul]
  rw [applyQuaternionV_eq_conj v _ hab, applyQuaternionV_eq_conj v b hb,
    applyQuaternionV_eq_conj _ a ha, ofVec_vec_of_w _ (quat_conj_sandwich_w b v),
    quat_sandwich_mul]

theorem quat_lengthSq_nonneg (q : Quat) : 0 ≤ Quat.lengthSq q := by
  dsimp [Quat.lengthSq]
  nlinarith [mul_self_nonneg q.x, mul_self_nonneg q.y, mul_self_nonneg q.z,
    mul_self_nonneg q.w]

theorem quat_lengthSq_normalize (q : Quat) (h : Quat.lengthSq q ≠ 0) :
    Quat.lengthSq (Quat.normalize q) = 1 := by
  have hpos : 0 < Quat.lengthSq q := lt_of_le_of_ne (quat_lengthSq_nonneg q) (Ne.symm h)
  have hlpos : 0 < Quat.length q := Real.sqrt_pos.mpr hpos
  have hlne : Quat.length q ≠ 0 := ne_of_gt hlpos
  have hll : Quat.length q * Quat.length q = Quat.lengthSq q :=
    Real.mul_self_sqrt (quat_lengthSq_nonneg q)
  simp only [Quat.normalize, if_neg hlne]
  dsimp [Quat.lengthSq] at *
  field_simp
  linear_combination -hll

theorem quat_normalize_components (q : Quat) (h : Quat.length q ≠ 0) :
    Quat.normalize q = ⟨(1 / Quat.length q) * q.x, (1 / Quat.length q) * q.y,
      (1 / Quat.length q) * q.z, (1 / Quat.length q) * q.w⟩ := by
  simp only [Quat.normalize, if_neg h]
  ext <;> dsimp <;> ring

theorem quat_scale_conj (q p : Quat) (c : ℝ) :
    Quat.mul (Quat.mul ⟨c * q.x, c * q.y, c * q.z, c * q.w⟩ p)
        (Quat.conj ⟨c * q.x, c * q.y, c * q.z, c * q.w⟩)
      = ⟨c * c * (Quat.mul (Quat.mul q p) (Quat.conj q)).x,
         c * c * (Quat.mul (Quat.mul q p) (Quat.conj q)).y,
         c * c * (Quat.mul (Quat.mul q p) (Quat.conj q)).z,
         c * c * (Quat.mul (Quat.mul q p) (Quat.conj q)).w⟩ := by
  ext <;> dsimp [Quat.mul, Quat.conj] <;> ring

theorem applyQuaternionV_normalize (u v : Vec3) (q : Quat)
    (hs : Quat.lengthSq q ≠ 0)
    (hconj : Quat.mul (Quat.mul q (Quat.ofVec u)) (Quat.conj q)
      = Quat.ofVec (Vec3.smul (Quat.lengthSq q) v)) :
    applyQuaternionV u (Quat.normalize q) = v := by
  have hpos : 0 < Quat.lengthSq q := lt_of_le_of_ne (quat_lengthSq_nonneg q) (Ne.symm hs)
  have hlpos : 0 < Quat.length q := Real.sqrt_pos.mpr hpos
  have hlne : Quat.length q ≠ 0 := ne_of_gt hlpos
  have hll : Quat.length q * Quat.length q = Quat.lengthSq q :=
    Real.mul_self_sqrt (quat_lengthSq_nonneg q)
  rw [applyQuaternionV_eq_conj u _ (quat_lengthSq_normalize q hs),
    quat_normalize_components q hlne, quat_scale_conj, hconj]
  have hsll : Quat.lengthSq q = Quat.length q * Quat.length q := hll.symm
  ext <;> dsimp [Quat.vec, Quat.ofVec, Vec3.smul] <;> rw [hsll] <;> field_simp

theorem vec3_normalize_of_unit (v : Vec3) (h : Vec3.lengthSq v = 1) :
    Vec3.normalize v = v := by
  have hl : Vec3.length v = 1 := by rw [Vec3.length, h, Real.sqrt_one]
  rw [Vec3.normalize, hl]
  have hif : (if (1 : ℝ) = 0 then (1 : ℝ) else 1) = 1 := by simp
  rw [hif]
  ext <;> dsimp [Vec3.smul] <;> ring

theorem setFromUnitVectorsRaw_generic (u v : Vec3)
    (h : ¬ (Vec3.dot u v + 1 < numberEpsilon)) :
    setFromUnitVectorsRaw u v = ⟨u.y * v.z - u.z * v.y, u.z * v.x - u.x * v.z,
      u.x * v.y - u.y * v.x, Vec3.dot u v + 1⟩ := by
  simp only [setFromUnitVectorsRaw]
  rw [if_neg h]

theorem shortestArc_lengthSq (u v : Vec3) (hu : Vec3.lengthSq u = 1)
    (hv : Vec3.lengthSq v = 1) :
    Quat.lengthSq ⟨u.y * v.z - u.z * v.y, u.z * v.x - u.x * v.z,
      u.x * v.y - u.y * v.x, Vec3.dot u v + 1⟩ = 2 + 2 * Vec3.dot u v := by
  dsimp [Quat.lengthSq, Vec3.dot, Vec3.lengthSq] at *
  linear_combination (v.x * v.x + v.y * v.y + v.z * v.z) * hu + hv

theorem shortestArc_conj (u v : Vec3) :
    Quat.mul (Quat.mul ⟨u.y * v.z - u.z * v.y, u.z * v.x - u.x * v.z,
        u.x * v.y - u.y * v.x, Vec3.dot u v + 1⟩ (Quat.ofVec u))
      (Quat.conj ⟨u.y * v.z - u.z * v.y, u.z * v.x - u.x * v.z,
        u.x * v.y - u.y * v.x, Vec3.dot u v + 1⟩)
      = Quat.ofVec (Vec3.add
          (Vec3.smul (1 - Vec3.lengthSq u * Vec3.lengthSq v) u)
          (Vec3.smul (Vec3.lengthSq u * (2 + 2 * Vec3.dot u v)) v)) := by
  ext <;> dsimp [Quat.mul, Quat.conj, Quat.ofVec, Vec3.add, Vec3.smul, Vec3.dot,
    Vec3.lengthSq] <;> ring

theorem targetDir_lengthSq : Vec3.lengthSq targetDir = 1 := by
  dsimp [targetDir, Vec3.lengthSq]
  norm_num

end QuatLemmas

/-- C3: the face-alignment click transforms the clicked local normal to
world space with the current rotation, takes the shortest-arc rotation
carrying the world normal to the downward axis (0, -1, 0), and
left-multiplies it onto the current rotation; consequently the local
normal transformed by the new rotation equals the downward axis exactly,
for every unit rotation and unit local normal whose world normal is
outside the epsilon guard band of setFromUnitVectors or exactly
antiparallel to the downward axis. -/
theorem align_face_normal_down (meshRotation : Quat) (localNormal : Vec3)
    (hq : Quat.lengthSq meshRotation = 1) (hn : Vec3.lengthSq localNormal = 1)
    (hgen : numberEpsilon ≤ Vec3.dot (worldNormalOf meshRotation localNormal) targetDir + 1
        ∨ Vec3.dot (worldNormalOf meshRotation localNormal) targetDir + 1 = 0) :
    applyQuaternionV localNormal (alignNewRotation meshRotation localNormal) = targetDir := by
  set u : Vec3 := applyQuaternionV localNormal meshRotation with hu_def
  have hw0 : Vec3.lengthSq u = 1 := by
    rw [hu_def, applyQuaternionV_lengthSq _ _ hq, hn]
  have hnorm : worldNormalOf meshRotation localNormal = u := by
    rw [worldNormalOf, ← hu_def]
    exact vec3_normalize_of_unit u hw0
  rw [hnorm] at hgen
  have key : applyQuaternionV u (setFromUnitVectors u targetDir) = targetDir ∧
      Quat.lengthSq (setFromUnitVectorsRaw u targetDir) ≠ 0 := by
    cases hgen with
    | inl hle =>
        have hlt : ¬ (Vec3.dot u targetDir + 1 < numberEpsilon) := not_lt.mpr hle
        have hraw := setFromUnitVectorsRaw_generic u targetDir hlt
        have hsq := shortestArc_lengthSq u targetDir hw0 targetDir_lengthSq
        have hdpos : 0 < 2 + 2 * Vec3.dot u targetDir := by
          have := numberEpsilon_pos
          linarith
        have hne : Quat.lengthSq (setFromUnitVectorsRaw u targetDir) ≠ 0 := by
          rw [hraw, hsq]
          exact ne_of_gt hdpos
        have hconj : Quat.mul (Quat.mul (setFromUnitVectorsRaw u targetDir) (Quat.ofVec u))
            (Quat.conj (setFromUnitVectorsRaw u targetDir))
            = Quat.ofVec (Vec3.smul (Quat.lengthSq (setFromUnitVectorsRaw u targetDir))
                targetDir) := by
          rw [hraw, shortestArc_conj u targetDir, hsq, hw0, targetDir_lengthSq]
          ext <;> dsimp [Quat.ofVec, Vec3.add, Vec3.smul] <;> ring
        exact ⟨applyQuaternionV_normalize u targetDir _ hne hconj, hne⟩
    | inr hzero =>
        have hdotu : Vec3.dot u targetDir = -u.y := by
          dsimp [Vec3.dot, targetDir]
          ring
        have hy : u.y = 1 := by
          rw [hdotu] at hzero
          linarith
        have hx : u.x = 0 := by
          dsimp [Vec3.lengthSq] at hw0
          nlinarith [mul_self_nonneg u.x, mul_self_nonneg u.z]
        have hz : u.z = 0 := by
          dsimp [Vec3.lengthSq] at hw0
          nlinarith [mul_self_nonneg u.x, mul_self_nonneg u.z]
        have huv : u = ⟨0, 1, 0⟩ := by
          ext <;> simp [hx, hy, hz]
        have hcond : Vec3.dot (⟨0, 1, 0⟩ : Vec3) targetDir + 1 < numberEpsilon := by
          dsimp [Vec3.dot, targetDir]
          have := numberEpsilon_pos
          linarith
        have hraw : setFromUnitVectorsRaw ⟨0, 1, 0⟩ targetDir = ⟨0, 0, 1, 0⟩ := by
          simp only [setFromUnitVectorsRaw]
          rw [if_pos hcond]
          have habs : ¬ (|(0 : ℝ)| > |(0 : ℝ)|) := by simp
          rw [if_neg habs]
          ext <;> norm_num
        have hne : Quat.lengthSq (setFromUnitVectorsRaw u targetDir) ≠ 0 := by
          rw [huv, hraw]
          norm_num [Quat.lengthSq]
        have hconj : Quat.mul (Quat.mul (setFromUnitVectorsRaw u targetDir) (Quat.ofVec u))
            (Quat.conj (setFromUnitVectorsRaw u targetDir))
            = Quat.ofVec (Vec3.smul (Quat.lengthSq (setFromUnitVectorsRaw u targetDir))
                targetDir) := by
          rw [huv, hraw]
          ext <;> dsimp [Quat.mul, Quat.conj, Quat.ofVec, Vec3.smul, Quat.lengthSq,
            targetDir] <;> ring
        exact ⟨applyQuaternionV_normalize u targetDir _ hne hconj, hne⟩
  obtain ⟨happly, hne⟩ := key
  have hAunit : Quat.lengthSq (setFromUnitVectors u targetDir) = 1 :=
    quat_lengthSq_normalize _ hne
  rw [alignNewRotation, hnorm]
  rw [applyQuaternionV_mul localNormal _ meshRotation hAunit hq]
  rw [← hu_def]
  exact happly

/-- Witness for C3 with the identity rotation and the unit local normal
(1, 0, 0). -/
theorem align_face_normal_down_witness :
    Quat.lengthSq Quat.one = 1 ∧
    Vec3.lengthSq ⟨1, 0, 0⟩ = 1 ∧
    (numberEpsilon ≤ Vec3.dot (worldNormalOf Quat.one ⟨1, 0, 0⟩) targetDir + 1 ∨
      Vec3.dot (worldNormalOf Quat.one ⟨1, 0, 0⟩) targetDir + 1 = 0) ∧
    applyQuaternionV ⟨1, 0, 0⟩ (alignNewRotation Quat.one ⟨1, 0, 0⟩) = targetDir := by
  have h1 : Quat.lengthSq Quat.one = 1 := by simp [Quat.lengthSq, Quat.one]
  have h2 : Vec3.lengthSq (⟨1, 0, 0⟩ : Vec3) = 1 := by simp [Vec3.lengthSq]
  have happ : applyQuaternionV ⟨1, 0, 0⟩ Quat.one = ⟨1, 0, 0⟩ := by
    ext <;> dsimp [applyQuaternionV, Quat.one] <;> ring
  have hworld : worldNormalOf Quat.one ⟨1, 0, 0⟩ = ⟨1, 0, 0⟩ := by
    rw [worldNormalOf, happ]
    exact vec3_normalize_of_unit _ h2
  have h3 : numberEpsilon ≤ Vec3.dot (worldNormalOf Quat.one ⟨1, 0, 0⟩) targetDir + 1 := by
    rw [hworld]
    have hd : Vec3.dot (⟨1, 0, 0⟩ : Vec3) targetDir + 1 = 1 := by
      dsimp [Vec3.dot, targetDir]
      ring
    rw [hd]
    exact numberEpsilon_le_one
  exact ⟨h1, h2, Or.inl h3, align_face_normal_down Quat.one ⟨1, 0, 0⟩ h1 h2 (Or.inl h3)⟩
